import Mathlib

/-!
Shallow embedding of the UI-scraping core of the `terraform-provider-opnsense`
repository (package `opnsense`, files `dhcp.go`, `opn.go`,
`resource_opn_dhcp_static_map.go`, `resource_opn_dns_host_override.go`, the DNS
session file, and `cmd/testsuite/main.go`).

Modelling conventions:
  * Go strings are Lean `String`s; character-level work goes through `String.toList`.
  * An HTML table cell (`td`) is the list of its text-node contents in document
    order (`Cell`); a table row (`tr`) is its list of cells (`Row`); the XPath
    query `//td[i]//text()` on a row is `nthCell row i` (1-based, empty result
    for out-of-range positions, in particular for `//td[0]`).
  * HTTP fetches are inputs of type `Except String (List Row)`: `.error e`
    models a transport error, `.ok rows` the parsed `//table//tr` node list of
    the fetched page.
  * A session is represented by its CSRF token string (`""` = never
    authenticated, matching `IsAuthenticated`) and its cached field schema.
  * Go functions that mutate a record through a pointer are modelled as
    functions returning the updated record.
-/

/-! ### Go string helpers -/

/-- Whitespace recognised by `strings.TrimSpace` (ASCII subset used by the
scraped pages). -/
def isSpaceChar (c : Char) : Bool :=
  c = ' ' || c = '\t' || c = '\n' || c = '\r'

/-- List-level model of `strings.TrimSpace`. -/
def trimChars (l : List Char) : List Char :=
  ((l.dropWhile isSpaceChar).reverse.dropWhile isSpaceChar).reverse

/-- Model of Go `strings.TrimSpace` on strings. -/
def goTrim (s : String) : String :=
  (trimChars s.toList).asString

/-- Concatenation of a list of strings, used to state extraction results. -/
def joinStrs : List String → String
  | [] => ""
  | s :: rest => s ++ joinStrs rest

/-! ### The MAC-address pattern

`regexp.Match("([0-9a-f]{2}(?::[0-9a-f]{2}){5})", content)` reports whether the
hex-octet MAC pattern occurs anywhere in `content`. -/

/-- Character class `[0-9a-f]` of the MAC regular expression. -/
def isMacHexChar (c : Char) : Bool :=
  ('0' ≤ c && c ≤ '9') || ('a' ≤ c && c ≤ 'f')

/-- Whether the MAC pattern `[0-9a-f]{2}(:[0-9a-f]{2}){5}` matches at the head
of the character list. -/
def macPatternAtHead : List Char → Bool
  | a :: b :: c1 :: c :: d :: c2 :: e :: f :: c3 :: g :: h :: c4 :: i :: j :: c5 :: k :: l :: _ =>
    isMacHexChar a && isMacHexChar b && c1 = ':' &&
    isMacHexChar c && isMacHexChar d && c2 = ':' &&
    isMacHexChar e && isMacHexChar f && c3 = ':' &&
    isMacHexChar g && isMacHexChar h && c4 = ':' &&
    isMacHexChar i && isMacHexChar j && c5 = ':' &&
    isMacHexChar k && isMacHexChar l
  | _ => false

/-- Whether the MAC pattern occurs anywhere in the character list (model of an
unanchored `regexp.Match`). -/
def containsMacList : List Char → Bool
  | [] => false
  | c :: rest => macPatternAtHead (c :: rest) || containsMacList rest

/-- Model of `regexp.Match` for the MAC pattern on a Go string. -/
def containsMac (s : String) : Bool :=
  containsMacList s.toList

/-! ### Table cells and the field schema -/

/-- A table cell: the text-node contents below one `td`, in document order. -/
abbrev Cell := List String

/-- A table row: its cells in document order. -/
abbrev Row := List Cell

/-- Modelled from the spec: the helper `index` used by `GetStaticMappingField`
(and the lease scraper's `Get`) is declared in this repository but its file is
not under `src/`; per the spec's field-schema invariant ("column lookups are by
label"), it is the conventional linear scan returning the position of a label in
the cached schema, or `-1` when the label is absent. -/
def index (l : List String) (s : String) : Int :=
  match l.findIdx? (fun x => x = s) with
  | some n => (n : Int)
  | none => -1

/-- Result of the XPath query `//td[i]//text()` against a row: the text nodes
of the `i`-th cell (1-based); the empty position `//td[0]` and out-of-range
positions select nothing. -/
def nthCell (row : Row) (i : Int) : Option Cell :=
  if 1 ≤ i then row.get? (i.toNat - 1) else none

/-! ### DHCP static mappings (`dhcp.go`) -/

/-- HTML row where static maps start (`DHCPEntryStartingRow`). -/
def DHCPEntryStartingRow : Nat := 2

/-- Field label `DHCPMAC`. -/
def DHCPMAC : String := "MAC address"

/-- Field label `DHCPIP`. -/
def DHCPIP : String := "IP address"

/-- Field label `DHCPHostname`. -/
def DHCPHostname : String := "Hostname"

/-- Error string `ErrMACExists`. -/
def ErrMACExists : String := "mapping for this MAC already exists"

/-- Error string `ErrNoSuchMAC`. -/
def ErrNoSuchMAC : String := "mapping doesn't exists for this MAC address"

/-- Error text of `IsAuthenticated` when the CSRF token is unset. -/
def errNoSession : String := "can't establish a session to OPNSense"

/-- Record `StaticMapping` of `dhcp.go`. -/
structure StaticMapping where
  ID : Int
  Interface : String
  IP : String
  MAC : String
  Hostname : String
deriving DecidableEq, Repr

/-- Loop body of `GetStaticMappingField`: one text node `v` is trimmed, a
`MAC address` field keeps only text nodes in which the MAC pattern occurs, an
empty `Hostname` text is replaced by the literal `"default"`, and the surviving
content is appended to the accumulator. -/
def fieldStep (f : String) (res : String) (v : String) : String :=
  let content := goTrim v
  if f = DHCPMAC ∧ containsMac content = false then
    res
  else
    let content := if f = DHCPHostname ∧ content = "" then "default" else content
    res ++ content

/-- Model of `DHCPSession.GetStaticMappingField`: locate the field's column in
the cached schema, query `//td[id]//text()` on the row, and fold the text nodes
with `fieldStep`. -/
def getStaticMappingField (fields : List String) (row : Row) (f : String) : String :=
  let id := index fields f + 1
  if id = -1 then ""
  else
    match nthCell row id with
    | none => ""
    | some texts => texts.foldl (fieldStep f) ""

/-- Model of `GetStaticFieldNames`: keep the cached schema when non-empty, else
record the non-empty trimmed texts of the header row's element children. -/
def getStaticFieldNames (cached : List String) (headerChildren : List String) : List String :=
  if cached ≠ [] then cached
  else (headerChildren.map goTrim).filter (fun s => s ≠ "")

/-- Row scraping loop of `GetAllInterfaceStaticMappings`: data rows start at
index `DHCPEntryStartingRow` of the `//table//tr` node list and the positional
ID is the offset from that first data row. -/
def scrapeStaticMappings (iface : String) (fields : List String) (rows : List Row) :
    List StaticMapping :=
  ((rows.drop DHCPEntryStartingRow).enum).map fun p =>
    { ID := (p.1 : Int)
      Interface := iface
      IP := getStaticMappingField fields p.2 DHCPIP
      MAC := getStaticMappingField fields p.2 DHCPMAC
      Hostname := getStaticMappingField fields p.2 DHCPHostname }

/-- Model of `GetAllInterfaceStaticMappings`: fail with the `IsAuthenticated`
error while the CSRF token is unset (before any HTTP request), propagate a
transport error of the page fetch, else scrape the rows. `fields` is the
session's cached field schema. -/
def getAllInterfaceStaticMappings (csrf : String) (fields : List String)
    (fetch : Except String (List Row)) (iface : String) :
    Except String (List StaticMapping) :=
  if csrf = "" then .error errNoSession
  else
    match fetch with
    | .error e => .error e
    | .ok rows => .ok (scrapeStaticMappings iface fields rows)

/-- Model of `FindMappingByMAC`: scrape all entries of the record's interface
and return the first entry (in document order) whose MAC equals the record's
MAC, else the `ErrNoSuchMAC` error. -/
def findMappingByMAC (csrf : String) (fields : List String)
    (fetch : Except String (List Row)) (m : StaticMapping) :
    Except String StaticMapping :=
  match getAllInterfaceStaticMappings csrf fields fetch m.Interface with
  | .error e => .error e
  | .ok entries =>
    match entries.find? (fun e => e.MAC == m.MAC) with
    | some e => .ok e
    | none => .error ErrNoSuchMAC

/-- Observable outcome of a create operation: either the `AlreadyExists` error,
or control reached `CreateOrEdit` with the given record (the model stops at the
point where the edit-form GET/POST sequence is issued). -/
inductive CreateOutcome (α : Type) where
  | alreadyExists : CreateOutcome α
  | proceeded : α → CreateOutcome α
deriving DecidableEq, Repr

/-- Model of `CreateStaticMapping`. Faithful to the source: the result of
`FindMappingByMAC` is only tested for `e != nil`; any resolution error
(unauthenticated session, transport failure, or `ErrNoSuchMAC`) leaves `e` nil,
the error value is discarded, and control proceeds into `CreateOrEdit` with the
sentinel ID `-1`. -/
def createStaticMapping (csrf : String) (fields : List String)
    (fetch : Except String (List Row)) (m : StaticMapping) :
    CreateOutcome StaticMapping :=
  match findMappingByMAC csrf fields fetch m with
  | .ok _ => .alreadyExists
  | .error _ => .proceeded { m with ID := -1 }

/-- Model of `ReadStaticMapping`: on resolution failure return the error and
leave the record unchanged; on success overwrite exactly `ID`, `IP` and
`Hostname` with the observed entry's values. -/
def readStaticMapping (csrf : String) (fields : List String)
    (fetch : Except String (List Row)) (m : StaticMapping) :
    Except String StaticMapping :=
  match findMappingByMAC csrf fields fetch m with
  | .error e => .error e
  | .ok e => .ok { m with ID := e.ID, IP := e.IP, Hostname := e.Hostname }

/-- Model of `UpdateStaticMapping`: on resolution failure return the error; on
success control reaches `CreateOrEdit` with the record carrying the observed
positional ID. -/
def updateStaticMapping (csrf : String) (fields : List String)
    (fetch : Except String (List Row)) (m : StaticMapping) :
    Except String StaticMapping :=
  match findMappingByMAC csrf fields fetch m with
  | .error e => .error e
  | .ok e => .ok { m with ID := e.ID }

/-- Model of `DeleteStaticMapping`: on resolution failure return the error; on
success control reaches the delete POST with the observed positional ID. -/
def deleteStaticMapping (csrf : String) (fields : List String)
    (fetch : Except String (List Row)) (m : StaticMapping) :
    Except String Int :=
  match findMappingByMAC csrf fields fetch m with
  | .error e => .error e
  | .ok e => .ok e.ID

/-! ### The testsuite's resolution path (`cmd/testsuite/main.go`) -/

/-- Loop body of the lease scraper's `GetStatic`: like `fieldStep` but without
the `Hostname` default-marker normalization. -/
def getStaticStep (f : String) (res : String) (v : String) : String :=
  let content := goTrim v
  if f = DHCPMAC ∧ containsMac content = false then res
  else res ++ content

/-- Model of `DHCPStaticLeases.GetStatic`: field extraction used by
`GetStaticMapID`. -/
def getStatic (fields : List String) (row : Row) (f : String) : String :=
  let id := index fields f + 1
  if id = -1 then ""
  else
    match nthCell row id with
    | none => ""
    | some texts => texts.foldl (getStaticStep f) ""

/-- Model of `DHCPStaticLeases.GetStaticMapID`: scan every data row and record
the offset of each row whose extracted MAC equals the lease's MAC; the variable
`mapID` is overwritten on every match, so the last matching row survives; `-1`
at the end of the loop is reported as the "invalid dhcp map ID" error. -/
def getStaticMapID (fields : List String) (rows : List Row) (leaseMAC : String) :
    Except String Int :=
  let mapID := ((rows.drop DHCPEntryStartingRow).enum).foldl
    (fun acc p => if leaseMAC == getStatic fields p.2 DHCPMAC then (p.1 : Int) else acc)
    (-1)
  if mapID = -1 then .error "invalid dhcp map ID" else .ok mapID

/-- Comparison definition (from the spec's words, for the resolution-order
claim): the data rows of the table whose extracted MAC matches the sought
lease MAC, paired with their positional offsets, in document order. -/
def matchingRows (fields : List String) (rows : List Row) (leaseMAC : String) :
    List (Nat × Row) :=
  ((rows.drop DHCPEntryStartingRow).enum).filter
    (fun p => leaseMAC == getStatic fields p.2 DHCPMAC)

/-! ### DNS host overrides (the `DNSSession` file) -/

/-- Field label `DNSHost`. -/
def DNSHost : String := "Host"

/-- Field label `DNSDomain`. -/
def DNSDomain : String := "Domain"

/-- Field label `DNSType`. -/
def DNSType : String := "Type"

/-- Field label `DNSValue`. -/
def DNSValue : String := "Value"

/-- Error string `ErrDNSHostExists`. -/
def ErrDNSHostExists : String := "DNS override for this host already exists"

/-- Error string `ErrDNSNoSuchEntry`. -/
def ErrDNSNoSuchEntry : String := "host override entry doesn't exists"

/-- Record `DNSHostEntry` (the Go field `Type` is spelled `Type'` because
`Type` is reserved in Lean). -/
structure DNSHostEntry where
  ID : Int
  Type' : String
  Host : String
  Domain : String
  IP : String
deriving DecidableEq, Repr

/-- Model of the DNS `GetStaticMappingField`: like the DHCP one but with no
MAC-pattern or hostname special case. -/
def dnsGetStaticMappingField (fields : List String) (row : Row) (f : String) : String :=
  let id := index fields f + 1
  if id = -1 then ""
  else
    match nthCell row id with
    | none => ""
    | some texts => texts.foldl (fun res v => res ++ goTrim v) ""

/-- Row scraping loop of `GetAllHostEntries` (data rows start at
`DNSEntryStartingRow = 2`, positional ID is the offset from the first data
row). -/
def scrapeHostEntries (fields : List String) (rows : List Row) : List DNSHostEntry :=
  ((rows.drop DHCPEntryStartingRow).enum).map fun p =>
    { ID := (p.1 : Int)
      Type' := dnsGetStaticMappingField fields p.2 DNSType
      Host := dnsGetStaticMappingField fields p.2 DNSHost
      Domain := dnsGetStaticMappingField fields p.2 DNSDomain
      IP := dnsGetStaticMappingField fields p.2 DNSValue }

/-- Model of `GetAllHostEntries`: authentication gate first, then transport,
then scraping. -/
def getAllHostEntries (csrf : String) (fields : List String)
    (fetch : Except String (List Row)) : Except String (List DNSHostEntry) :=
  if csrf = "" then .error errNoSession
  else
    match fetch with
    | .error e => .error e
    | .ok rows => .ok (scrapeHostEntries fields rows)

/-- Model of `HostsMatch`: exact equality of the `Host`, `Domain`, `Type` and
`IP` fields. -/
def hostsMatch (e1 e2 : DNSHostEntry) : Bool :=
  e1.Host == e2.Host && e1.Domain == e2.Domain && e1.Type' == e2.Type' && e1.IP == e2.IP

/-- Model of `FindHostEntry`: first entry in document order matching the
natural key. -/
def findHostEntry (csrf : String) (fields : List String)
    (fetch : Except String (List Row)) (h : DNSHostEntry) :
    Except String DNSHostEntry :=
  match getAllHostEntries csrf fields fetch with
  | .error e => .error e
  | .ok entries =>
    match entries.find? (fun e => hostsMatch h e) with
    | some e => .ok e
    | none => .error ErrDNSNoSuchEntry

/-- Model of `FindHostEntryByID`: first entry whose positional ID matches. -/
def findHostEntryByID (csrf : String) (fields : List String)
    (fetch : Except String (List Row)) (id : Int) :
    Except String DNSHostEntry :=
  match getAllHostEntries csrf fields fetch with
  | .error e => .error e
  | .ok entries =>
    match entries.find? (fun e => e.ID == id) with
    | some e => .ok e
    | none => .error ErrDNSNoSuchEntry

/-- Model of `CreateHostOverride`: like `CreateStaticMapping`, only
`e != nil` is tested, so every resolution error is discarded and control
proceeds into `CreateOrEdit` with sentinel ID `-1`. -/
def createHostOverride (csrf : String) (fields : List String)
    (fetch : Except String (List Row)) (h : DNSHostEntry) :
    CreateOutcome DNSHostEntry :=
  match findHostEntry csrf fields fetch h with
  | .ok _ => .alreadyExists
  | .error _ => .proceeded { h with ID := -1 }

/-- Model of `ReadHostOverride`: on success only the positional ID is copied
into the caller's record. -/
def readHostOverride (csrf : String) (fields : List String)
    (fetch : Except String (List Row)) (h : DNSHostEntry) :
    Except String DNSHostEntry :=
  match findHostEntry csrf fields fetch h with
  | .error e => .error e
  | .ok e => .ok { h with ID := e.ID }

/-- Model of `UpdateHostOverride`: resolution by the caller-supplied positional
ID; on success control reaches `CreateOrEdit`. -/
def updateHostOverride (csrf : String) (fields : List String)
    (fetch : Except String (List Row)) (h : DNSHostEntry) :
    Except String DNSHostEntry :=
  match findHostEntryByID csrf fields fetch h.ID with
  | .error e => .error e
  | .ok e => .ok { h with ID := e.ID }

/-- Model of `DeleteHostOverride`: on success control reaches the delete POST
with the observed positional ID. -/
def deleteHostOverride (csrf : String) (fields : List String)
    (fetch : Except String (List Row)) (h : DNSHostEntry) :
    Except String Int :=
  match findHostEntry csrf fields fetch h with
  | .error e => .error e
  | .ok e => .ok e.ID

/-! ### Session authentication (`opn.go`)

`Authenticate` fetches the root page, extracts the anti-forgery token with
`regexp.FindSubmatch` on the pattern `"X-CSRFToken", "(.*)" \);`, and indexes
`csrf[1]` without checking for a nil result; a body with no occurrence of the
pattern therefore crashes (index out of range) instead of returning an
error. -/

/-- Literal prefix of the CSRF script pattern. -/
def csrfLit1 : List Char := "\"X-CSRFToken\", \"".toList

/-- Literal suffix of the CSRF script pattern. -/
def csrfLit2 : List Char := "\" );".toList

/-- Candidate end positions for the greedy `(.*)` group inside the remainder
after the literal prefix: positions `k` such that no newline occurs in the
first `k` characters and the literal suffix matches at `k`. -/
def csrfStops (rest : List Char) : List Nat :=
  (List.range (rest.length + 1)).filter
    (fun k => ((rest.take k).all (fun c => c != '\n')) && csrfLit2.isPrefixOf (rest.drop k))

/-- Leftmost-first, greedy search for the CSRF pattern: try each start
position in order; on the first start where the literal prefix matches and a
stop exists, return the longest `(.*)` group; otherwise report no match
(which `FindSubmatch` renders as a nil slice). -/
def findCSRFAux : List Char → Option (List Char)
  | [] => none
  | c :: rest =>
    if csrfLit1.isPrefixOf (c :: rest) then
      let tailPart := (c :: rest).drop csrfLit1.length
      match (csrfStops tailPart).getLast? with
      | some k => some (tailPart.take k)
      | none => findCSRFAux rest
    else findCSRFAux rest

/-- Model of `re.FindSubmatch` group 1 for the CSRF pattern over a page
body. -/
def findCSRFSubmatch (body : String) : Option String :=
  (findCSRFAux body.toList).map List.asString

/-- Outcome of `OPNSession.Authenticate`: a captured token, a returned error,
or a runtime crash (the nil-submatch index panic). -/
inductive AuthOutcome where
  | ok : String → AuthOutcome
  | err : String → AuthOutcome
  | crashed : AuthOutcome
deriving DecidableEq, Repr

/-- Model of `OPNSession.Authenticate`: propagate a transport error of the
initial GET; extract the token from the body, crashing when the pattern does
not occur (`csrf[1]` on a nil slice); propagate a transport error of the login
POST; otherwise the session holds the captured token. -/
def authenticate (getResp : Except String String) (postResp : Except String Unit) :
    AuthOutcome :=
  match getResp with
  | .error e => .err e
  | .ok body =>
    match findCSRFSubmatch body with
    | none => .crashed
    | some tok =>
      match postResp with
      | .error e => .err e
      | .ok _ => .ok tok

/-! ### Composite resource identifiers (the resource-adapter files)

`parseDhcpResourceID` matches the unanchored pattern `([^/]+)/([^/]+)` with
`MatchString`/`FindStringSubmatch`; `parseDNSResourceID` matches five groups
and converts the fifth with `strconv.Atoi`, discarding the conversion error.
Because each group is `[^/]+` and the patterns are unanchored, the leftmost
match consists of the first run of consecutive non-empty slash-separated
segments of the required length. -/

/-- Segments of a character list split on `'/'` (separators are not kept;
adjacent separators yield empty segments). -/
def splitSlash : List Char → List (List Char)
  | [] => [[]]
  | c :: cs =>
    let r := splitSlash cs
    if c = '/' then [] :: r
    else
      match r with
      | [] => [[c]]
      | s :: ss => (c :: s) :: ss

/-- First window of `n` consecutive non-empty segments, scanning left to
right: the groups of the leftmost match of `n` slash-separated `[^/]+`
groups. -/
def firstWindow (n : Nat) : List (List Char) → Option (List (List Char))
  | [] => none
  | s :: rest =>
    let w := (s :: rest).take n
    if w.length = n ∧ ∀ seg ∈ w, seg ≠ [] then some w
    else firstWindow n rest

/-- Model of `parseDhcpResourceID`: `none` is the "invalid resource format"
error; otherwise the two captured groups. -/
def parseDhcpResourceID (resID : String) : Option (String × String) :=
  match firstWindow 2 (splitSlash resID.toList) with
  | some (a :: b :: _) => some (a.asString, b.asString)
  | _ => none

/-- Model of `dhcpResourceID`. -/
def dhcpResourceID (itf mac : String) : String :=
  itf ++ "/" ++ mac

/-- Decimal digit character for a value below ten. -/
def digitChar : Nat → Char
  | 0 => '0'
  | 1 => '1'
  | 2 => '2'
  | 3 => '3'
  | 4 => '4'
  | 5 => '5'
  | 6 => '6'
  | 7 => '7'
  | 8 => '8'
  | 9 => '9'
  | _ => '*'

/-- Whether a character is a decimal digit. -/
def isDigitChar (c : Char) : Bool :=
  48 ≤ c.toNat && c.toNat ≤ 57

/-- Value of a list of decimal digit characters (most significant first). -/
def digitsVal (l : List Char) : Nat :=
  l.foldl (fun a c => a * 10 + (c.toNat - 48)) 0

/-- Decimal digit list of a natural number (model of Go's integer
formatting). -/
def natToDigits (n : Nat) : List Char :=
  if _hlt : n < 10 then [digitChar n]
  else natToDigits (n / 10) ++ [digitChar (n % 10)]
decreasing_by exact Nat.div_lt_self (by omega) (by omega)

/-- Model of `fmt.Sprintf("%d", i)` for Go integers. -/
def intRepr (i : Int) : String :=
  if i < 0 then "-" ++ (natToDigits (-i).toNat).asString
  else (natToDigits i.toNat).asString

/-- Model of `strconv.Atoi` with the error value discarded as in
`parseDNSResourceID`: optional sign followed by digits, anything else gives
`0`. -/
def goAtoi (s : String) : Int :=
  match s.toList with
  | [] => 0
  | c :: cs =>
    if c = '+' then (if cs ≠ [] ∧ cs.all isDigitChar then (digitsVal cs : Int) else 0)
    else if c = '-' then (if cs ≠ [] ∧ cs.all isDigitChar then -(digitsVal cs : Int) else 0)
    else if (c :: cs).all isDigitChar then (digitsVal (c :: cs) : Int) else 0

/-- Model of `parseDNSResourceID`: `none` is the "invalid resource format"
error; otherwise the five captured groups, the fifth converted with
`strconv.Atoi` and its error ignored. -/
def parseDNSResourceID (resID : String) : Option DNSHostEntry :=
  match firstWindow 5 (splitSlash resID.toList) with
  | some (t :: h :: d :: ip :: i :: _) =>
    some { ID := goAtoi i.asString
           Type' := t.asString
           Host := h.asString
           Domain := d.asString
           IP := ip.asString }
  | _ => none

/-- Model of `dnsResourceID`. -/
def dnsResourceID (e : DNSHostEntry) : String :=
  e.Type' ++ "/" ++ e.Host ++ "/" ++ e.Domain ++ "/" ++ e.IP ++ "/" ++ intRepr e.ID

/-! ### Helper lemmas -/

theorem string_data_append (a b : String) : (a ++ b).data = a.data ++ b.data := by
  cases a; cases b; rfl

theorem string_append_assoc (a b c : String) : a ++ b ++ c = a ++ (b ++ c) := by
  cases a; cases b; cases c
  show String.mk _ = String.mk _
  simp [String.append, List.append_assoc]

theorem string_append_empty (a : String) : a ++ "" = a := by
  cases a
  show String.mk _ = String.mk _
  simp [String.append]

theorem string_empty_append (a : String) : "" ++ a = a := by
  cases a
  show String.mk _ = String.mk _
  simp [String.append]

theorem string_toList_append (a b : String) : (a ++ b).toList = a.toList ++ b.toList := by
  cases a; cases b; rfl

theorem string_asString_toList (s : String) : s.toList.asString = s := by
  cases s; rfl

theorem string_toList_asString (l : List Char) : l.asString.toList = l := rfl

theorem string_append_ne_empty_left (a b : String) (h : a ≠ "") : a ++ b ≠ "" := by
  intro hc
  apply h
  have hd := congrArg String.data hc
  rw [string_data_append] at hd
  have : a.data = [] := by
    cases hda : a.data with
    | nil => rfl
    | cons x xs => rw [hda] at hd; simp at hd
  cases a
  simp_all


theorem joinStrs_cons (s : String) (l : List String) :
    joinStrs (s :: l) = s ++ joinStrs l := rfl

/-- Folding `fieldStep DHCPMAC` appends exactly the trimmed text nodes in which
the MAC pattern occurs. -/
theorem foldl_fieldStep_mac (l : List String) (acc : String) :
    l.foldl (fieldStep DHCPMAC) acc
      = acc ++ joinStrs (l.map fun v => if containsMac (goTrim v) then goTrim v else "") := by
  induction l generalizing acc with
  | nil => simp [joinStrs, string_append_empty]
  | cons v rest ih =>
    have hstep : fieldStep DHCPMAC acc v
        = if containsMac (goTrim v) then acc ++ goTrim v else acc := by
      unfold fieldStep
      by_cases hc : containsMac (goTrim v)
      · simp [hc, DHCPMAC, DHCPHostname]
      · simp only [Bool.not_eq_true] at hc
        simp [hc, DHCPMAC]
    simp only [List.foldl_cons, List.map_cons, joinStrs_cons, hstep]
    by_cases hc : containsMac (goTrim v)
    · simp only [hc, if_pos]
      rw [ih, string_append_assoc]
    · simp only [hc, if_neg, Bool.false_eq_true, not_false_iff, ite_false]
      rw [ih, string_empty_append]

/-- Folding `fieldStep DHCPHostname` over text nodes that all trim to the
empty string appends one `"default"` marker per node. -/
theorem foldl_fieldStep_hostname_empty (l : List String) (acc : String)
    (h : ∀ v ∈ l, goTrim v = "") :
    l.foldl (fieldStep DHCPHostname) acc
      = acc ++ joinStrs (l.map fun _ => "default") := by
  induction l generalizing acc with
  | nil => simp [joinStrs, string_append_empty]
  | cons v rest ih =>
    have hv : goTrim v = "" := h v (List.mem_cons_self v rest)
    have hstep : fieldStep DHCPHostname acc v = acc ++ "default" := by
      unfold fieldStep
      simp [hv, DHCPMAC, DHCPHostname]
    have h' : ∀ x ∈ rest, goTrim x = "" := fun x hx => h x (List.mem_cons_of_mem v hx)
    simp only [List.foldl_cons, List.map_cons, joinStrs_cons, hstep]
    rw [ih (acc ++ "default") h', string_append_assoc]

/-- A label absent from the schema makes `index` report `-1`. -/
theorem index_eq_neg_one_of_not_mem (fields : List String) (f : String)
    (h : f ∉ fields) : index fields f = -1 := by
  unfold index
  have : fields.findIdx? (fun x => x = f) = none := by
    rw [List.findIdx?_eq_none_iff]
    intro x hx
    simp only [decide_eq_false_iff_not]
    intro he
    exact absurd (he ▸ hx) h
  rw [this]

/-- Lemma: `index` never returns a value below `-1`. -/
theorem index_ge_neg_one (fields : List String) (f : String) :
    -1 ≤ index fields f := by
  unfold index
  cases fields.findIdx? (fun x => x = f) with
  | none => simp
  | some n => simp; omega

/-- Lemma: `find?` returns the first element, in list order, satisfying the
predicate. -/
theorem find_first_of_earlier_fail {α : Type} (p : α → Bool) :
    ∀ (l : List α) (i : Nat) (x : α), l.get? i = some x → p x = true →
      (∀ j, j < i → ∀ y, l.get? j = some y → p y = false) →
      l.find? p = some x := by
  intro l
  induction l with
  | nil => intro i x hx; simp at hx
  | cons z t ih =>
    intro i x hx hp hfail
    cases i with
    | zero =>
      simp at hx
      subst hx
      simp [List.find?_cons_of_pos, hp]
    | succ i' =>
      have hz : p z = false := hfail 0 (Nat.succ_pos i') z rfl
      rw [List.find?_cons_of_neg _ (by simp [hz])]
      exact ih i' x hx hp (fun j hj y hy => hfail (j + 1) (by omega) y hy)

/-- A fold that overwrites its accumulator on every match returns the last
match (or the initial accumulator when there is none). -/
theorem foldl_overwrite_last {α : Type} (p : α → Bool) (g : α → Int) :
    ∀ (l : List α) (acc : Int),
      l.foldl (fun a x => if p x then g x else a) acc
        = match (l.filter p).getLast? with
          | none => acc
          | some x => g x := by
  intro l
  induction l using List.reverseRecOn with
  | nil => intro acc; simp
  | append_singleton t x ih =>
    intro acc
    rw [List.foldl_append]
    by_cases hx : p x
    · simp only [List.foldl_cons, List.foldl_nil, hx, if_pos]
      rw [List.filter_append]
      simp [List.filter, hx, List.getLast?_concat]
    · simp only [List.foldl_cons, List.foldl_nil, hx, if_neg, Bool.false_eq_true,
        not_false_iff, ite_false]
      rw [List.filter_append]
      simp [List.filter, hx, ih]

theorem splitSlash_cons_slash (cs : List Char) :
    splitSlash ('/' :: cs) = [] :: splitSlash cs := by
  conv_lhs => unfold splitSlash
  rw [if_pos rfl]

theorem splitSlash_cons_ne (c : Char) (cs : List Char) (h : c ≠ '/') :
    splitSlash (c :: cs)
      = (match splitSlash cs with
        | [] => [[c]]
        | s :: ss => (c :: s) :: ss) := by
  conv_lhs => unfold splitSlash
  rw [if_neg h]

/-- Splitting a slash-free list yields the single segment. -/
theorem splitSlash_no_slash (l : List Char) (h : '/' ∉ l) : splitSlash l = [l] := by
  induction l with
  | nil => rfl
  | cons c cs ih =>
    have hc : c ≠ '/' := fun he => h (he ▸ List.mem_cons_self c cs)
    have hcs : '/' ∉ cs := fun hm => h (List.mem_cons_of_mem c hm)
    rw [splitSlash_cons_ne c cs hc, ih hcs]

/-- Splitting distributes over a leading slash-free segment. -/
theorem splitSlash_append (a rest : List Char) (h : '/' ∉ a) :
    splitSlash (a ++ '/' :: rest) = a :: splitSlash rest := by
  induction a with
  | nil =>
    show splitSlash ('/' :: rest) = [] :: splitSlash rest
    exact splitSlash_cons_slash rest
  | cons c a' ih =>
    have hc : c ≠ '/' := fun he => h (he ▸ List.mem_cons_self c a')
    have ha' : '/' ∉ a' := fun hm => h (List.mem_cons_of_mem c hm)
    show splitSlash (c :: (a' ++ '/' :: rest)) = (c :: a') :: splitSlash rest
    rw [splitSlash_cons_ne c _ hc, ih ha']

/-- A window scan over exactly `n` non-empty segments returns them all. -/
theorem firstWindow_exact (n : Nat) (s : List Char) (rest : List (List Char))
    (h1 : (s :: rest).length = n) (h2 : ∀ x ∈ s :: rest, x ≠ []) :
    firstWindow n (s :: rest) = some (s :: rest) := by
  unfold firstWindow
  rw [← h1, List.take_length]
  rw [if_pos ⟨rfl, h2⟩]

theorem digitVal_digitChar (d : Nat) (h : d < 10) : (digitChar d).toNat - 48 = d := by
  interval_cases d <;> rfl

theorem isDigitChar_digitChar (d : Nat) (h : d < 10) : isDigitChar (digitChar d) = true := by
  interval_cases d <;> rfl

theorem digitsVal_append (l : List Char) (c : Char) :
    digitsVal (l ++ [c]) = digitsVal l * 10 + (c.toNat - 48) := by
  unfold digitsVal
  rw [List.foldl_append]
  rfl

theorem natToDigits_digitsVal (n : Nat) : digitsVal (natToDigits n) = n := by
  induction n using Nat.strong_induction_on with
  | _ n ih =>
    by_cases h : n < 10
    · rw [natToDigits, dif_pos h]
      show 0 * 10 + ((digitChar n).toNat - 48) = n
      rw [digitVal_digitChar n h]
      omega
    · rw [natToDigits, dif_neg h]
      rw [digitsVal_append]
      rw [ih (n / 10) (Nat.div_lt_self (by omega) (by omega))]
      rw [digitVal_digitChar (n % 10) (Nat.mod_lt n (by omega))]
      omega

theorem natToDigits_ne_nil (n : Nat) : natToDigits n ≠ [] := by
  by_cases h : n < 10 <;> rw [natToDigits] <;> simp [h]

theorem natToDigits_all_digits (n : Nat) : ∀ c ∈ natToDigits n, isDigitChar c = true := by
  induction n using Nat.strong_induction_on with
  | _ n ih =>
    by_cases h : n < 10
    · rw [natToDigits, dif_pos h]
      intro c hc
      rw [List.mem_singleton] at hc
      exact hc ▸ isDigitChar_digitChar n h
    · rw [natToDigits, dif_neg h]
      intro c hc
      rcases List.mem_append.mp hc with hm | hm
      · exact ih (n / 10) (Nat.div_lt_self (by omega) (by omega)) c hm
      · rw [List.mem_singleton] at hm
        exact hm ▸ isDigitChar_digitChar (n % 10) (Nat.mod_lt n (by omega))

theorem isDigitChar_ne_plus (c : Char) (h : isDigitChar c = true) : c ≠ '+' := by
  intro he
  subst he
  exact absurd h (by decide)

theorem isDigitChar_ne_minus (c : Char) (h : isDigitChar c = true) : c ≠ '-' := by
  intro he
  subst he
  exact absurd h (by decide)

theorem isDigitChar_ne_slash (c : Char) (h : isDigitChar c = true) : c ≠ '/' := by
  intro he
  subst he
  exact absurd h (by decide)

/-- Decimal representations of Go integers contain no slash. -/
theorem intRepr_no_slash (i : Int) : '/' ∉ (intRepr i).toList := by
  unfold intRepr
  by_cases h : i < 0
  · rw [if_pos h]
    rw [string_toList_append]
    intro hm
    rcases List.mem_append.mp hm with hm' | hm'
    · exact absurd (List.mem_singleton.mp hm') (by decide)
    · rw [string_toList_asString] at hm'
      exact isDigitChar_ne_slash '/' (natToDigits_all_digits _ '/' hm') rfl
  · rw [if_neg h]
    rw [string_toList_asString]
    intro hm
    exact isDigitChar_ne_slash '/' (natToDigits_all_digits _ '/' hm) rfl

/-- Decimal representations of Go integers are non-empty. -/
theorem intRepr_ne_empty (i : Int) : (intRepr i).toList ≠ [] := by
  unfold intRepr
  by_cases h : i < 0
  · rw [if_pos h, string_toList_append]
    simp
  · rw [if_neg h, string_toList_asString]
    exact natToDigits_ne_nil _

/-- Evaluation of `goAtoi` on an explicit character list. -/
theorem goAtoi_cons (c : Char) (cs : List Char) :
    goAtoi ((c :: cs).asString)
      = (if c = '+' then (if cs ≠ [] ∧ cs.all isDigitChar then (digitsVal cs : Int) else 0)
        else if c = '-' then (if cs ≠ [] ∧ cs.all isDigitChar then -(digitsVal cs : Int) else 0)
        else if (c :: cs).all isDigitChar then (digitsVal (c :: cs) : Int) else 0) := rfl

theorem string_dash_asString (l : List Char) : "-" ++ l.asString = ('-' :: l).asString := by
  apply String.ext
  rw [string_data_append]
  rfl

/-- Lemma: `strconv.Atoi` undoes `%d` formatting on every Go integer. -/
theorem goAtoi_intRepr (i : Int) : goAtoi (intRepr i) = i := by
  cases i with
  | ofNat n =>
    have hneg : ¬((Int.ofNat n) < 0) := Int.not_lt.mpr (Int.ofNat_nonneg n)
    obtain ⟨c, cs, hcons⟩ := List.exists_cons_of_ne_nil (natToDigits_ne_nil n)
    have hdig : ∀ x ∈ c :: cs, isDigitChar x = true := by
      rw [← hcons]
      exact natToDigits_all_digits n
    have hc : isDigitChar c = true := hdig c (List.mem_cons_self c cs)
    have h1 : intRepr (Int.ofNat n) = (c :: cs).asString := by
      unfold intRepr
      rw [if_neg hneg]
      show (natToDigits (Int.ofNat n).toNat).asString = _
      rw [show (Int.ofNat n).toNat = n from rfl, hcons]
    rw [h1, goAtoi_cons]
    rw [if_neg (isDigitChar_ne_plus c hc), if_neg (isDigitChar_ne_minus c hc)]
    rw [if_pos (List.all_eq_true.mpr hdig)]
    rw [← hcons, natToDigits_digitsVal]
    rfl
  | negSucc n =>
    have h1 : intRepr (Int.negSucc n) = ('-' :: natToDigits (n + 1)).asString := by
      unfold intRepr
      rw [if_pos (Int.negSucc_lt_zero n)]
      show "-" ++ (natToDigits (-(Int.negSucc n)).toNat).asString = _
      rw [show (-(Int.negSucc n)).toNat = n + 1 from rfl]
      exact string_dash_asString _
    rw [h1, goAtoi_cons]
    rw [if_neg (by decide : ¬(('-' : Char) = '+')), if_pos rfl]
    rw [if_pos ⟨natToDigits_ne_nil _, List.all_eq_true.mpr (natToDigits_all_digits _)⟩]
    rw [natToDigits_digitsVal, Int.negSucc_eq]
    omega

/-! ### Unfolding equations (definitional) -/

theorem getStaticMappingField_eq (fields : List String) (row : Row) (f : String) :
    getStaticMappingField fields row f
      = (if index fields f + 1 = -1 then ""
        else
          match nthCell row (index fields f + 1) with
          | none => ""
          | some texts => texts.foldl (fieldStep f) "") := rfl

theorem dnsGetStaticMappingField_eq (fields : List String) (row : Row) (f : String) :
    dnsGetStaticMappingField fields row f
      = (if index fields f + 1 = -1 then ""
        else
          match nthCell row (index fields f + 1) with
          | none => ""
          | some texts => texts.foldl (fun res v => res ++ goTrim v) "") := rfl

theorem getStaticMapID_eq (fields : List String) (rows : List Row) (leaseMAC : String) :
    getStaticMapID fields rows leaseMAC
      = (if ((rows.drop DHCPEntryStartingRow).enum).foldl
            (fun acc p => if leaseMAC == getStatic fields p.2 DHCPMAC then (p.1 : Int) else acc)
            (-1) = -1
        then .error "invalid dhcp map ID"
        else .ok (((rows.drop DHCPEntryStartingRow).enum).foldl
            (fun acc p => if leaseMAC == getStatic fields p.2 DHCPMAC then (p.1 : Int) else acc)
            (-1))) := rfl

theorem firstWindow_cons_eq (n : Nat) (s : List Char) (rest : List (List Char)) :
    firstWindow n (s :: rest)
      = (if ((s :: rest).take n).length = n ∧ ∀ seg ∈ (s :: rest).take n, seg ≠ []
        then some ((s :: rest).take n)
        else firstWindow n rest) := rfl

/-! ### Window lemmas for the identifier patterns -/

theorem firstWindow_two_singleton (s : List Char) : firstWindow 2 [s] = none := by
  rw [firstWindow_cons_eq]
  rw [if_neg]
  · rfl
  · intro hand
    simp at hand
  
theorem firstWindow_two_head (a b : List Char) (rest : List (List Char))
    (ha : a ≠ []) (hb : b ≠ []) : firstWindow 2 (a :: b :: rest) = some [a, b] := by
  rw [firstWindow_cons_eq]
  have htake : (a :: b :: rest).take 2 = [a, b] := by
    simp [List.take_succ_cons]
  rw [htake]
  rw [if_pos]
  constructor
  · rfl
  · intro seg hseg
    rcases List.mem_cons.mp hseg with h | h
    · exact h ▸ ha
    · rw [List.mem_singleton] at h
      exact h ▸ hb

theorem firstWindow_five_head (a b c d e : List Char) (rest : List (List Char))
    (ha : a ≠ []) (hb : b ≠ []) (hc : c ≠ []) (hd : d ≠ []) (he : e ≠ []) :
    firstWindow 5 (a :: b :: c :: d :: e :: rest) = some [a, b, c, d, e] := by
  rw [firstWindow_cons_eq]
  have htake : (a :: b :: c :: d :: e :: rest).take 5 = [a, b, c, d, e] := by
    simp [List.take_succ_cons]
  rw [htake]
  rw [if_pos]
  constructor
  · rfl
  · intro seg hseg
    rcases List.mem_cons.mp hseg with h | hseg
    · exact h ▸ ha
    rcases List.mem_cons.mp hseg with h | hseg
    · exact h ▸ hb
    rcases List.mem_cons.mp hseg with h | hseg
    · exact h ▸ hc
    rcases List.mem_cons.mp hseg with h | hseg
    · exact h ▸ hd
    rw [List.mem_singleton] at hseg
    exact hseg ▸ he

theorem toList_slash_join2 (a b : String) :
    (a ++ "/" ++ b).toList = a.toList ++ '/' :: b.toList := by
  rw [string_toList_append, string_toList_append]
  rw [show ("/" : String).toList = ['/'] from rfl]
  simp [List.append_assoc]

theorem toList_slash_join3 (a b c : String) :
    (a ++ "/" ++ b ++ "/" ++ c).toList = a.toList ++ '/' :: (b.toList ++ '/' :: c.toList) := by
  simp only [string_toList_append, show ("/" : String).toList = ['/'] from rfl]
  simp [List.append_assoc]

theorem toList_slash_join5 (a b c d e : String) :
    (a ++ "/" ++ b ++ "/" ++ c ++ "/" ++ d ++ "/" ++ e).toList
      = a.toList ++ '/' :: (b.toList ++ '/' :: (c.toList ++ '/' :: (d.toList
          ++ '/' :: e.toList))) := by
  simp only [string_toList_append, show ("/" : String).toList = ['/'] from rfl]
  simp [List.append_assoc]

/-! ### Claims -/

/-- C1: the spec requires every record-service operation on a session whose
anti-forgery token is unset to fail fast with the `Unauthenticated` error
before any HTTP request. The read, update and delete paths of both record
kinds do exactly that, but both create paths violate it: `CreateStaticMapping`
and `CreateHostOverride` test only `e != nil` on the resolution result, so the
`Unauthenticated` error is discarded and control proceeds into `CreateOrEdit`
(the edit-form GET and create/edit POST) with sentinel ID `-1` even though the
session never authenticated. This theorem exhibits the divergence on the code
model: with an unset token every non-create verb returns the
`IsAuthenticated` error, while both creates reach the create/edit request. -/
theorem c1_unauthenticated_gate (fields : List String) (fetch : Except String (List Row))
    (m : StaticMapping) (hostRec : DNSHostEntry) :
    readStaticMapping "" fields fetch m = .error errNoSession ∧
    updateStaticMapping "" fields fetch m = .error errNoSession ∧
    deleteStaticMapping "" fields fetch m = .error errNoSession ∧
    readHostOverride "" fields fetch hostRec = .error errNoSession ∧
    updateHostOverride "" fields fetch hostRec = .error errNoSession ∧
    deleteHostOverride "" fields fetch hostRec = .error errNoSession ∧
    createStaticMapping "" fields fetch m = .proceeded { m with ID := -1 } ∧
    createHostOverride "" fields fetch hostRec = .proceeded { hostRec with ID := -1 } :=
  ⟨rfl, rfl, rfl, rfl, rfl, rfl, rfl, rfl⟩

/-- C2: the claim says `Authenticate` is total — on a root-page body with no
occurrence of the in-page CSRF script pattern it should return an
authentication error. In the code `re.FindSubmatch` returns a nil slice for
such a body and `csrf[1]` panics (index out of range), so authentication
crashes instead of returning an error: whenever the pattern search comes back
empty, the model's outcome is `crashed`, not `err`. -/
theorem c2_authenticate_crash (body : String) (postResp : Except String Unit)
    (hnone : findCSRFSubmatch body = none) :
    authenticate (.ok body) postResp = .crashed := by
  show (match findCSRFSubmatch body with
    | none => AuthOutcome.crashed
    | some tok =>
      match postResp with
      | .error e => AuthOutcome.err e
      | .ok _ => AuthOutcome.ok tok) = AuthOutcome.crashed
  rw [hnone]

/-- Witness for `c2_authenticate_crash` at a concrete login page body that
contains no CSRF script pattern. -/
theorem c2_authenticate_crash_witness :
    findCSRFSubmatch "<html><body>login</body></html>" = none ∧
    authenticate (.ok "<html><body>login</body></html>") (.ok ()) = .crashed :=
  ⟨by decide, c2_authenticate_crash "<html><body>login</body></html>" (.ok ()) (by decide)⟩

/-- C5: the claim says a resolution failure other than not-found (transport or
authentication error) is propagated by Create and does not lead to a create
attempt. In the code both create functions discard the resolution error
entirely (`e != nil` is the only test), so a transport error during
`FindMappingByMAC`/`FindHostEntry` still leads straight into `CreateOrEdit`
with sentinel ID `-1`: on an authenticated session whose table fetch fails,
both creates proceed instead of propagating the error. -/
theorem c5_create_swallows_errors (fields : List String) (msg : String)
    (m : StaticMapping) (hostRec : DNSHostEntry) :
    createStaticMapping "tok" fields (.error msg) m = .proceeded { m with ID := -1 } ∧
    createHostOverride "tok" fields (.error msg) hostRec = .proceeded { hostRec with ID := -1 } :=
  ⟨rfl, rfl⟩

/-- Counterexample to C3 as stated: the `MAC address` cell consists of a single
text node `"x aa:bb:cc:dd:ee:ff"`, whose text contains a substring matching the
hex-octet MAC pattern together with additional non-hex content; extraction
keeps the whole trimmed text node instead of returning exactly the matching
MAC substring. -/
theorem c3_counterexample :
    getStaticMappingField ["MAC address"] [["x aa:bb:cc:dd:ee:ff"]] "MAC address"
        = "x aa:bb:cc:dd:ee:ff" ∧
    getStaticMappingField ["MAC address"] [["x aa:bb:cc:dd:ee:ff"]] "MAC address"
        ≠ "aa:bb:cc:dd:ee:ff" :=
  ⟨by decide, by decide⟩

/-- C3 (amended): `regexp.Match` is only used as a per-text-node filter, so
extraction of a `MAC address` field returns the concatenation of the trimmed
texts of exactly those text nodes of the cell in which the MAC pattern occurs;
text nodes with no MAC occurrence (decorative icons/buttons) are discarded
whole, but non-hex content sharing a text node with the MAC is kept, not
stripped. When the cell's extra content lies in separate text nodes, the result
is exactly the MAC text. -/
theorem c3_mac_node_filter (fields : List String) (row : Row) (texts : Cell) (k : Nat)
    (hidx : index fields DHCPMAC = (k : Int))
    (hcell : nthCell row ((k : Int) + 1) = some texts) :
    getStaticMappingField fields row DHCPMAC
      = joinStrs (texts.map fun v => if containsMac (goTrim v) then goTrim v else "") := by
  rw [getStaticMappingField_eq, hidx]
  rw [if_neg (by omega : ¬((k : Int) + 1 = -1))]
  rw [hcell]
  show texts.foldl (fieldStep DHCPMAC) "" = _
  rw [foldl_fieldStep_mac]
  rw [string_empty_append]

/-- Witness for `c3_mac_node_filter`: a cell holding a decorative text node and
the MAC text node; the result is exactly the MAC. -/
theorem c3_mac_node_filter_witness :
    index ["MAC address"] DHCPMAC = ((0 : Nat) : Int) ∧
    nthCell [["btn", " aa:bb:cc:dd:ee:ff "]] (((0 : Nat) : Int) + 1)
        = some ["btn", " aa:bb:cc:dd:ee:ff "] ∧
    getStaticMappingField ["MAC address"] [["btn", " aa:bb:cc:dd:ee:ff "]] DHCPMAC
      = joinStrs ((["btn", " aa:bb:cc:dd:ee:ff "] : Cell).map
          fun v => if containsMac (goTrim v) then goTrim v else "") ∧
    joinStrs ((["btn", " aa:bb:cc:dd:ee:ff "] : Cell).map
          fun v => if containsMac (goTrim v) then goTrim v else "") = "aa:bb:cc:dd:ee:ff" :=
  ⟨by decide, by decide,
   c3_mac_node_filter ["MAC address"] [["btn", " aa:bb:cc:dd:ee:ff "]]
     ["btn", " aa:bb:cc:dd:ee:ff "] 0 (by decide) (by decide),
   by decide⟩

/-- Counterexample to C4 as stated: a `Hostname` cell that is empty in the
strongest sense — it contains no text node at all (`<td></td>`) — makes the
XPath text query return nothing, the normalization loop never runs, and
extraction yields the empty string rather than the `"default"` marker. -/
theorem c4_counterexample :
    getStaticMappingField ["Hostname"] [[]] "Hostname" = "" ∧
    getStaticMappingField ["Hostname"] [[]] "Hostname" ≠ "default" :=
  ⟨by decide, by decide⟩

/-- C4 (amended): the default-marker normalization is per text node, so a
`Hostname` cell containing at least one text node all of whose texts trim to
the empty string yields one `"default"` marker per text node — in particular a
whitespace-only cell yields exactly `"default"`, never the empty string; but a
cell with no text nodes at all yields `""` (see the counterexample). Extraction
is a pure function of the schema and row, so repeated reads of the same table
agree. -/
theorem c4_hostname_default (fields : List String) (row : Row) (texts : Cell) (k : Nat)
    (hidx : index fields DHCPHostname = (k : Int))
    (hcell : nthCell row ((k : Int) + 1) = some texts)
    (hne : texts ≠ [])
    (hempty : ∀ v ∈ texts, goTrim v = "") :
    getStaticMappingField fields row DHCPHostname
      = joinStrs (texts.map fun _ => "default") ∧
    getStaticMappingField fields row DHCPHostname ≠ "" := by
  have heq : getStaticMappingField fields row DHCPHostname
      = joinStrs (texts.map fun _ => "default") := by
    rw [getStaticMappingField_eq, hidx]
    rw [if_neg (by omega : ¬((k : Int) + 1 = -1))]
    rw [hcell]
    show texts.foldl (fieldStep DHCPHostname) "" = _
    rw [foldl_fieldStep_hostname_empty texts "" hempty]
    rw [string_empty_append]
  refine ⟨heq, ?_⟩
  rw [heq]
  obtain ⟨v, rest, hcons⟩ := List.exists_cons_of_ne_nil hne
  rw [hcons, List.map_cons, joinStrs_cons]
  exact string_append_ne_empty_left "default" _ (by decide)

/-- Witness for `c4_hostname_default`: a `Hostname` cell holding one
whitespace-only text node yields `"default"`. -/
theorem c4_hostname_default_witness :
    index ["Hostname"] DHCPHostname = ((0 : Nat) : Int) ∧
    nthCell [[" "]] (((0 : Nat) : Int) + 1) = some [" "] ∧
    getStaticMappingField ["Hostname"] [[" "]] DHCPHostname
      = joinStrs (([" "] : Cell).map fun _ => "default") ∧
    joinStrs (([" "] : Cell).map fun _ => "default") = "default" :=
  ⟨by decide, by decide,
   (c4_hostname_default ["Hostname"] [[" "]] [" "] 0 (by decide) (by decide)
     (by decide) (by decide)).1,
   by decide⟩

/-- Counterexample to C6 as stated: on a table with two data rows carrying the
same MAC, `FindMappingByMAC` resolves to the first row (positional ID 0) but
the testsuite's resolution path `GetStaticMapID` — whose loop keeps overwriting
`mapID` without breaking — resolves to the last row (positional ID 1), so the
first match does not win in every resolution path. -/
theorem c6_counterexample :
    findMappingByMAC "tok" ["MAC address"]
        (.ok [[], [], [["aa:bb:cc:dd:ee:ff"]], [["aa:bb:cc:dd:ee:ff"]]])
        { ID := 5, Interface := "lan", IP := "ip0", MAC := "aa:bb:cc:dd:ee:ff", Hostname := "hn" }
      = .ok { ID := 0, Interface := "lan", IP := "", MAC := "aa:bb:cc:dd:ee:ff", Hostname := "" }
    ∧ getStaticMapID ["MAC address"] [[], [], [["aa:bb:cc:dd:ee:ff"]], [["aa:bb:cc:dd:ee:ff"]]]
        "aa:bb:cc:dd:ee:ff" = .ok 1 :=
  ⟨rfl, rfl⟩

/-- C6 (amended): resolution scans the scraped rows linearly; the record
services' resolver `FindMappingByMAC` returns the first row in document order
whose extracted MAC equals the sought MAC exactly, but in the testsuite's
resolution path `GetStaticMapID` the last matching row in document order wins
(its loop overwrites the candidate ID on every match): that function equals the
positional ID of the last element of the matching-row list, or the
"invalid dhcp map ID" error when there is none. -/
theorem c6_resolution_order :
    (∀ (csrf : String) (fields : List String) (rows : List Row) (m : StaticMapping)
        (i : Nat) (e : StaticMapping),
      csrf ≠ "" →
      (scrapeStaticMappings m.Interface fields rows).get? i = some e →
      e.MAC = m.MAC →
      (∀ j, j < i → ∀ e2, (scrapeStaticMappings m.Interface fields rows).get? j = some e2 →
        e2.MAC ≠ m.MAC) →
      findMappingByMAC csrf fields (.ok rows) m = .ok e)
    ∧ (∀ (fields : List String) (rows : List Row) (leaseMAC : String),
      getStaticMapID fields rows leaseMAC
        = match (matchingRows fields rows leaseMAC).getLast? with
          | none => .error "invalid dhcp map ID"
          | some p => .ok (p.1 : Int)) := by
  constructor
  · intro csrf fields rows m i e hcsrf hget hmac hfail
    unfold findMappingByMAC getAllInterfaceStaticMappings
    rw [if_neg hcsrf]
    show (match (scrapeStaticMappings m.Interface fields rows).find?
        (fun x => x.MAC == m.MAC) with
      | some e2 => Except.ok e2
      | none => Except.error ErrNoSuchMAC) = Except.ok e
    rw [find_first_of_earlier_fail (fun x => x.MAC == m.MAC) _ i e hget
      (beq_iff_eq.mpr hmac)
      (fun j hj y hy => beq_eq_false_iff_ne.mpr (hfail j hj y hy))]
  · intro fields rows leaseMAC
    rw [getStaticMapID_eq]
    rw [foldl_overwrite_last (fun q : Nat × Row => leaseMAC == getStatic fields q.2 DHCPMAC)
      (fun q : Nat × Row => (q.1 : Int))]
    unfold matchingRows
    cases hl : (((rows.drop DHCPEntryStartingRow).enum).filter
        (fun p => leaseMAC == getStatic fields p.2 DHCPMAC)).getLast? with
    | none => rw [if_pos rfl]
    | some p =>
      rw [if_neg (by omega : ¬((p.1 : Int) = -1))]

/-- Witness for `c6_resolution_order`: a single-match table where the first
(and only) matching row, at positional ID 0, is returned. -/
theorem c6_resolution_order_witness :
    findMappingByMAC "tok" ["MAC address"]
        (.ok [[], [], [["aa:bb:cc:dd:ee:ff"]], [["bb:bb:cc:dd:ee:ff"]]])
        { ID := 5, Interface := "lan", IP := "ip0", MAC := "aa:bb:cc:dd:ee:ff", Hostname := "hn" }
      = .ok { ID := 0, Interface := "lan", IP := "", MAC := "aa:bb:cc:dd:ee:ff", Hostname := "" } :=
  c6_resolution_order.1 "tok" ["MAC address"]
    [[], [], [["aa:bb:cc:dd:ee:ff"]], [["bb:bb:cc:dd:ee:ff"]]]
    { ID := 5, Interface := "lan", IP := "ip0", MAC := "aa:bb:cc:dd:ee:ff", Hostname := "hn" }
    0 { ID := 0, Interface := "lan", IP := "", MAC := "aa:bb:cc:dd:ee:ff", Hostname := "" }
    (by decide) (by decide) (by decide)
    (fun j hj => absurd hj (Nat.not_lt_zero j))

/-- Counterexample to C7 as stated: caller-supplied identifiers that are not of
the documented composite shape are accepted, not rejected. `"a/b/c"` has an
extra component yet `parseDhcpResourceID` silently accepts it (the pattern
`([^/]+)/([^/]+)` is unanchored), and `"A/h/d/1.2.3.4/x/y"` has both an extra
component and a non-numeric positional ID yet `parseDNSResourceID` accepts it
with the ID coerced to 0 (the `strconv.Atoi` error is discarded). -/
theorem c7_counterexample :
    parseDhcpResourceID "a/b/c" = some ("a", "b")
    ∧ parseDNSResourceID "A/h/d/1.2.3.4/x/y"
        = some { ID := 0, Type' := "A", Host := "h", Domain := "d", IP := "1.2.3.4" } :=
  ⟨by decide, by decide⟩

/-- C7 (amended): parsing fails with the specific "invalid resource format"
error only when the identifier contains no run of 2 (DHCP) consecutive
non-empty slash-separated components — in particular every slash-free string is
rejected; but an identifier with extra components is silently accepted with the
leading components (`a/b/c` parses as interface `a`, MAC `b`), and a DNS
identifier whose final component is not a valid number is accepted with the
positional ID coerced to the `strconv.Atoi` failure value 0 rather than
rejected. -/
theorem c7_format_rejection :
    (∀ s : String, '/' ∉ s.toList → parseDhcpResourceID s = none)
    ∧ (∀ a b c : String,
        a.toList ≠ [] → '/' ∉ a.toList → b.toList ≠ [] → '/' ∉ b.toList →
        c.toList ≠ [] → '/' ∉ c.toList →
        parseDhcpResourceID (a ++ "/" ++ b ++ "/" ++ c) = some (a, b))
    ∧ (∀ t hs d ip x : String,
        t.toList ≠ [] → '/' ∉ t.toList → hs.toList ≠ [] → '/' ∉ hs.toList →
        d.toList ≠ [] → '/' ∉ d.toList → ip.toList ≠ [] → '/' ∉ ip.toList →
        x.toList ≠ [] → '/' ∉ x.toList → goAtoi x = 0 →
        parseDNSResourceID (t ++ "/" ++ hs ++ "/" ++ d ++ "/" ++ ip ++ "/" ++ x)
          = some { ID := 0, Type' := t, Host := hs, Domain := d, IP := ip }) := by
  refine ⟨?_, ?_, ?_⟩
  · intro s hs
    unfold parseDhcpResourceID
    rw [splitSlash_no_slash s.toList hs, firstWindow_two_singleton]
  · intro a b c ha1 ha2 hb1 hb2 hc1 hc2
    unfold parseDhcpResourceID
    rw [toList_slash_join3]
    rw [splitSlash_append _ _ ha2, splitSlash_append _ _ hb2, splitSlash_no_slash _ hc2]
    rw [firstWindow_two_head _ _ _ ha1 hb1]
    show some (a.toList.asString, b.toList.asString) = some (a, b)
    rw [string_asString_toList, string_asString_toList]
  · intro t hs d ip x ht1 ht2 hh1 hh2 hd1 hd2 hip1 hip2 hx1 hx2 hx0
    unfold parseDNSResourceID
    rw [toList_slash_join5]
    rw [splitSlash_append _ _ ht2, splitSlash_append _ _ hh2,
      splitSlash_append _ _ hd2, splitSlash_append _ _ hip2,
      splitSlash_no_slash _ hx2]
    rw [firstWindow_five_head _ _ _ _ _ _ ht1 hh1 hd1 hip1 hx1]
    show some (DNSHostEntry.mk (goAtoi x.toList.asString) t.toList.asString
        hs.toList.asString d.toList.asString ip.toList.asString)
      = some (DNSHostEntry.mk 0 t hs d ip)
    rw [string_asString_toList, string_asString_toList, string_asString_toList,
      string_asString_toList, string_asString_toList, hx0]

/-- Witness for `c7_format_rejection` at concrete identifiers: a slash-free
string is rejected, a three-component DHCP identifier is truncated-accepted,
and a DNS identifier with non-numeric final ID is accepted with ID 0. -/
theorem c7_format_rejection_witness :
    parseDhcpResourceID "nomatch" = none
    ∧ parseDhcpResourceID ("a" ++ "/" ++ "b" ++ "/" ++ "c") = some ("a", "b")
    ∧ parseDNSResourceID ("A" ++ "/" ++ "h" ++ "/" ++ "d" ++ "/" ++ "1.2.3.4" ++ "/" ++ "4x")
        = some { ID := 0, Type' := "A", Host := "h", Domain := "d", IP := "1.2.3.4" } :=
  ⟨c7_format_rejection.1 "nomatch" (by decide),
   c7_format_rejection.2.1 "a" "b" "c" (by decide) (by decide) (by decide) (by decide)
     (by decide) (by decide),
   c7_format_rejection.2.2 "A" "h" "d" "1.2.3.4" "4x" (by decide) (by decide) (by decide)
     (by decide) (by decide) (by decide) (by decide) (by decide) (by decide) (by decide)
     (by decide)⟩

/-- Counterexample to C8 as stated: with an empty interface component (which
contains no `'/'`), serialization gives `"/ab"`, which parsing then rejects
(no run of two non-empty components), so the round trip does not return the
original pair error-free. -/
theorem c8_counterexample :
    dhcpResourceID "" "ab" = "/ab" ∧ parseDhcpResourceID (dhcpResourceID "" "ab") = none :=
  ⟨rfl, by decide⟩

/-- C8 (amended): identifier serialization and parsing round-trip for every
DHCP pair and every DNS entry whose string components are non-empty and contain
no `'/'` character (the positional ID may be any integer; its decimal form is
parsed back exactly): `parseDhcpResourceID (dhcpResourceID itf mac)` returns
`(itf, mac)` and `parseDNSResourceID (dnsResourceID e)` returns `e`, each with
no error. Empty components break the round trip (see the counterexample). -/
theorem c8_roundtrip :
    (∀ itf mac : String,
      itf.toList ≠ [] → '/' ∉ itf.toList → mac.toList ≠ [] → '/' ∉ mac.toList →
      parseDhcpResourceID (dhcpResourceID itf mac) = some (itf, mac))
    ∧ (∀ e : DNSHostEntry,
      e.Type'.toList ≠ [] → '/' ∉ e.Type'.toList →
      e.Host.toList ≠ [] → '/' ∉ e.Host.toList →
      e.Domain.toList ≠ [] → '/' ∉ e.Domain.toList →
      e.IP.toList ≠ [] → '/' ∉ e.IP.toList →
      parseDNSResourceID (dnsResourceID e) = some e) := by
  constructor
  · intro itf mac h1 h2 h3 h4
    unfold parseDhcpResourceID dhcpResourceID
    rw [toList_slash_join2]
    rw [splitSlash_append _ _ h2, splitSlash_no_slash _ h4]
    rw [firstWindow_two_head _ _ _ h1 h3]
    show some (itf.toList.asString, mac.toList.asString) = some (itf, mac)
    rw [string_asString_toList, string_asString_toList]
  · intro e h1 h2 h3 h4 h5 h6 h7 h8
    obtain ⟨eid, et, eh, ed, eip⟩ := e
    unfold parseDNSResourceID dnsResourceID
    rw [toList_slash_join5]
    rw [splitSlash_append _ _ h2, splitSlash_append _ _ h4,
      splitSlash_append _ _ h6, splitSlash_append _ _ h8,
      splitSlash_no_slash _ (intRepr_no_slash eid)]
    rw [firstWindow_five_head _ _ _ _ _ _ h1 h3 h5 h7 (intRepr_ne_empty eid)]
    show some (DNSHostEntry.mk (goAtoi (intRepr eid).toList.asString) et.toList.asString
        eh.toList.asString ed.toList.asString eip.toList.asString)
      = some (DNSHostEntry.mk eid et eh ed eip)
    rw [string_asString_toList, string_asString_toList, string_asString_toList,
      string_asString_toList, string_asString_toList, goAtoi_intRepr]

/-- Witness for `c8_roundtrip` at a concrete DHCP pair and a concrete DNS
entry (with a negative positional ID to exercise the sign path). -/
theorem c8_roundtrip_witness :
    parseDhcpResourceID (dhcpResourceID "opt3" "aa:bb:cc:dd:ee:ff")
      = some ("opt3", "aa:bb:cc:dd:ee:ff")
    ∧ parseDNSResourceID (dnsResourceID
        { ID := -2, Type' := "A", Host := "terra", Domain := "example.com", IP := "10.0.0.5" })
      = some { ID := -2, Type' := "A", Host := "terra", Domain := "example.com", IP := "10.0.0.5" } :=
  ⟨c8_roundtrip.1 "opt3" "aa:bb:cc:dd:ee:ff" (by decide) (by decide) (by decide) (by decide),
   c8_roundtrip.2
     { ID := -2, Type' := "A", Host := "terra", Domain := "example.com", IP := "10.0.0.5" }
     (by decide) (by decide) (by decide) (by decide) (by decide) (by decide) (by decide)
     (by decide)⟩

/-- C9: in `GetStaticMappingField` (both the DHCP and the DNS variant) the
not-found guard is dead code: the cell index is `index(Fields, f) + 1`, which
is at least `0` for every field list and label since `index` returns at least
`-1`, so the `id == -1` branch can never be taken; for a label absent from the
cached schema the index is `0`, the issued XPath query is `//td[0]`, which
selects no node, and the function returns the empty string. -/
theorem c9_dead_guard :
    (∀ (fields : List String) (f : String), index fields f + 1 ≠ -1)
    ∧ (∀ (fields : List String) (f : String) (row : Row), f ∉ fields →
        getStaticMappingField fields row f = "" ∧ dnsGetStaticMappingField fields row f = "") := by
  constructor
  · intro fields f
    have := index_ge_neg_one fields f
    omega
  · intro fields f row hf
    have hidx := index_eq_neg_one_of_not_mem fields f hf
    constructor
    · rw [getStaticMappingField_eq, hidx]
      rfl
    · rw [dnsGetStaticMappingField_eq, hidx]
      rfl

/-- Witness for `c9_dead_guard`: the label `Hostname` is absent from the
single-column schema `["IP address"]`, the guard is still not taken, and both
extraction variants return the empty string. -/
theorem c9_dead_guard_witness :
    index ["IP address"] "Hostname" + 1 ≠ -1
    ∧ getStaticMappingField ["IP address"] [["x"]] "Hostname" = ""
    ∧ dnsGetStaticMappingField ["IP address"] [["x"]] "Hostname" = "" :=
  ⟨c9_dead_guard.1 ["IP address"] "Hostname",
   (c9_dead_guard.2 ["IP address"] "Hostname" [["x"]] (by decide)).1,
   (c9_dead_guard.2 ["IP address"] "Hostname" [["x"]] (by decide)).2⟩

/-- C10: every successful `ReadStaticMapping` call overwrites only the `ID`,
`IP` and `Hostname` fields of the caller's record with the observed entry's
values, and leaves `Interface` and `MAC` exactly as the caller supplied
them. -/
theorem c10_read_frame (csrf : String) (fields : List String)
    (fetch : Except String (List Row)) (m m2 : StaticMapping)
    (hok : readStaticMapping csrf fields fetch m = .ok m2) :
    m2.Interface = m.Interface ∧ m2.MAC = m.MAC
    ∧ ∃ e, findMappingByMAC csrf fields fetch m = .ok e
        ∧ m2.ID = e.ID ∧ m2.IP = e.IP ∧ m2.Hostname = e.Hostname := by
  unfold readStaticMapping at hok
  cases hfind : findMappingByMAC csrf fields fetch m with
  | error e =>
    rw [hfind] at hok
    exact Except.noConfusion hok
  | ok e =>
    rw [hfind] at hok
    injection hok with h2
    subst h2
    exact ⟨rfl, rfl, e, rfl, rfl, rfl, rfl⟩

/-- Witness for `c10_read_frame`: a concrete read on a one-row table; the
caller's `Interface` and `MAC` survive while `ID`, `IP` and `Hostname` take
the observed row's values. -/
theorem c10_read_frame_witness :
    readStaticMapping "tok" ["MAC address", "IP address", "Hostname"]
        (.ok [[], [], [["aa:bb:cc:dd:ee:ff"], ["10.0.0.1"], ["host1"]]])
        ⟨9, "lan", "old", "aa:bb:cc:dd:ee:ff", "oldhn"⟩
      = .ok ⟨0, "lan", "10.0.0.1", "aa:bb:cc:dd:ee:ff", "host1"⟩
    ∧ (⟨0, "lan", "10.0.0.1", "aa:bb:cc:dd:ee:ff", "host1"⟩ : StaticMapping).Interface
        = (⟨9, "lan", "old", "aa:bb:cc:dd:ee:ff", "oldhn"⟩ : StaticMapping).Interface
    ∧ (⟨0, "lan", "10.0.0.1", "aa:bb:cc:dd:ee:ff", "host1"⟩ : StaticMapping).MAC
        = (⟨9, "lan", "old", "aa:bb:cc:dd:ee:ff", "oldhn"⟩ : StaticMapping).MAC
    ∧ ∃ e, findMappingByMAC "tok" ["MAC address", "IP address", "Hostname"]
          (.ok [[], [], [["aa:bb:cc:dd:ee:ff"], ["10.0.0.1"], ["host1"]]])
          ⟨9, "lan", "old", "aa:bb:cc:dd:ee:ff", "oldhn"⟩ = .ok e
        ∧ (⟨0, "lan", "10.0.0.1", "aa:bb:cc:dd:ee:ff", "host1"⟩ : StaticMapping).ID = e.ID
        ∧ (⟨0, "lan", "10.0.0.1", "aa:bb:cc:dd:ee:ff", "host1"⟩ : StaticMapping).IP = e.IP
        ∧ (⟨0, "lan", "10.0.0.1", "aa:bb:cc:dd:ee:ff", "host1"⟩ : StaticMapping).Hostname
            = e.Hostname :=
  ⟨rfl, c10_read_frame "tok" ["MAC address", "IP address", "Hostname"]
    (.ok [[], [], [["aa:bb:cc:dd:ee:ff"], ["10.0.0.1"], ["host1"]]])
    ⟨9, "lan", "old", "aa:bb:cc:dd:ee:ff", "oldhn"⟩
    ⟨0, "lan", "10.0.0.1", "aa:bb:cc:dd:ee:ff", "host1"⟩ rfl⟩
